import Mathlib

/-!
Shallow embedding of the `tough` TUF library and `tuftool` authoring CLI
(Rust), covering: the `Decoded` wrapper (src/tough/src/serde/decoded.rs),
signature-threshold verification and expiry checking
(src/tough/src/serde/mod.rs), the permission-checked datastore
(src/tough/src/datastore.rs), repository creation (src/tuftool/src/create.rs)
and root-of-trust key management (src/tuftool/src/root.rs).

Machine integers are modelled as `Nat` (all the arithmetic involved is
counting and bit-masking, far from overflow); byte strings as `List Nat`;
UTC timestamps as `Int` (seconds); filesystem state as association lists.
-/

namespace Tough

/-- The four TUF roles (enum `Role` in src/tough/src/serde/mod.rs, derived
`Ord` follows declaration order). -/
inductive Role where
  | Root
  | Snapshot
  | Targets
  | Timestamp
deriving DecidableEq, Repr

/-- The error kinds of the crate that the embedded operations can produce
(src/tough/src/error.rs is summarised by the spec's §7; only the variants
reachable from the embedded functions appear). Payloads mirror the snafu
context selectors used at each raise site. -/
inductive TufError where
  | MissingRole (role : Role)
  | SignatureThreshold (role : Role) (threshold : Nat) (valid : Nat)
  | ExpiredMetadata (role : Role)
  | DatastorePermissions (path : String) (mode : Nat)
  | DatastoreMetadata (path : String)
  | DatastoreCreate (path : String)
  | KeyDuplicate (key_id : List Nat)
deriving DecidableEq, Repr

/-! ## Decoded<E> (src/tough/src/serde/decoded.rs)

`Decoded<T>` stores the bytes decoded from a string together with the
original string; deserialization parses the string and keeps both,
serialization emits the original string (lines 69-90).  The decode
function `T::parse` is `Hex::parse` (hex::decode) or `Pem::parse`
(the external `pem` crate); the embedding is generic in it. -/

/-- Decidable equality of `Except` results (used to evaluate the embedded
fallible operations on concrete inputs). -/
instance instDecEqExcept {ε α : Type} [DecidableEq ε] [DecidableEq α] :
    DecidableEq (Except ε α)
  | .error a, .error b =>
    if h : a = b then .isTrue (by rw [h])
    else .isFalse (fun hc => h (by cases hc; rfl))
  | .error _, .ok _ => .isFalse (fun hc => Except.noConfusion hc)
  | .ok _, .error _ => .isFalse (fun hc => Except.noConfusion hc)
  | .ok a, .ok b =>
    if h : a = b then .isTrue (by rw [h])
    else .isFalse (fun hc => h (by cases hc; rfl))

/-- A `Decoded` value: decoded `bytes` plus the `original` string
(struct `Decoded<T>`, decoded.rs lines 19-23). -/
structure DecodedV where
  bytes : List Nat
  original : String
deriving DecidableEq, Repr

/-- Value of a single hex digit, case-insensitive (`hex::decode` accepts
`0-9a-fA-F`); `none` for a non-hex character. -/
def hexVal (c : Char) : Option Nat :=
  if '0' ≤ c ∧ c ≤ '9' then some (c.toNat - 48)
  else if 'a' ≤ c ∧ c ≤ 'f' then some (c.toNat - 87)
  else if 'A' ≤ c ∧ c ≤ 'F' then some (c.toNat - 55)
  else none

/-- Decode a list of hex digits two at a time; fails (as `hex::decode` does,
wrapped in `error::HexDecode`) on odd length or a non-hex character. -/
def hexPairs : List Char → Option (List Nat)
  | [] => some []
  | [_] => none
  | a :: b :: rest => do
    let ha ← hexVal a
    let hb ← hexVal b
    let r ← hexPairs rest
    pure ((ha * 16 + hb) :: r)

/-- `Hex::parse` (decoded.rs lines 49-53): `hex::decode` of the string. -/
def hexParse (s : String) : Option (List Nat) :=
  hexPairs s.toList

/-- `Deserialize for Decoded<T>` (decoded.rs lines 69-81): deserialize the
string, run `T::parse` on it, keep both the bytes and the original. -/
def deserializeDecoded (parse : String → Option (List Nat)) (s : String) :
    Option DecodedV :=
  match parse s with
  | some b => some { bytes := b, original := s }
  | none => none

/-- `Serialize for Decoded<T>` (decoded.rs lines 83-90): emit the original
string. -/
def serializeDecoded (d : DecodedV) : String :=
  d.original

/-! ## Signed<T>::check_expired (src/tough/src/serde/mod.rs lines 82-88)

`ensure!(Utc::now() < *self.signed.expires(), error::ExpiredMetadata ...)`.
Timestamps are `Int` seconds; the role is `T::ROLE`. -/

/-- `Signed::check_expired`: ok when `now < expires`, otherwise the
`ExpiredMetadata` error for the document's role. -/
def check_expired (role : Role) (now expires : Int) : Except TufError Unit :=
  if now < expires then .ok () else .error (.ExpiredMetadata role)

/-! ## Copylike selection (src/tuftool/src/create.rs lines 210-216) -/

/-- The `Copylike` file-placement actions of tuftool (src/tuftool/src/copylike.rs,
used by create.rs). -/
inductive Copylike where
  | Copy
  | Hardlink
  | Symlink
deriving DecidableEq, Repr

/-- `CreateProcess::copy_action` (create.rs lines 210-216): `--copy`
overrides `--hardlink`; neither flag means symlink. -/
def copy_action (copy hardlink : Bool) : Copylike :=
  match copy, hardlink with
  | true, _ => .Copy
  | false, true => .Hardlink
  | false, false => .Symlink

/-! ## Datastore (src/tough/src/datastore.rs)

The filesystem visible to the datastore is an association list from path to
`FileState` (permission mode bits and contents).  `fs::metadata` on a path
yields the mode when the path exists, `NotFound` when it does not, or some
other I/O error; `MetaResult` captures the three outcomes. -/

/-- A file on disk: Unix permission mode bits and contents. -/
structure FileState where
  mode : Nat
  contents : String
deriving DecidableEq, Repr

/-- Result of `fs::metadata(path)` as the datastore inspects it. -/
inductive MetaResult where
  | found (mode : Nat)
  | notFound
  | ioError
deriving DecidableEq, Repr

/-- `check_permissions` (datastore.rs lines 14-34): `NotFound` is accepted;
any other metadata error becomes `DatastoreMetadata`; an existing path must
satisfy `mode & 0o022 == 0`, else `DatastorePermissions{path, mode}`. -/
def check_permissions (path : String) (m : MetaResult) : Except TufError Unit :=
  match m with
  | .notFound => .ok ()
  | .ioError => .error (.DatastoreMetadata path)
  | .found mode =>
    if mode &&& 0o022 == 0 then .ok ()
    else .error (.DatastorePermissions path mode)

/-- `Datastore::new` (datastore.rs lines 37-40): check permissions on the
directory, then wrap the path. -/
def datastoreNew (path : String) (m : MetaResult) : Except TufError String :=
  match check_permissions path m with
  | .ok () => .ok path
  | .error e => .error e

/-- Filesystem state: paths mapped to files. -/
abbrev FS := List (String × FileState)

/-- Look up a path in the filesystem. -/
def fsLookup (fs : FS) (path : String) : Option FileState :=
  match fs with
  | [] => none
  | (p, st) :: rest => if p == path then some st else fsLookup rest path

/-- `fs::metadata` over the modelled filesystem (no I/O errors arise in the
model beyond `NotFound`). -/
def fsMetadata (fs : FS) (path : String) : MetaResult :=
  match fsLookup fs path with
  | some st => .found st.mode
  | none => .notFound

/-- Store a file at a path, replacing any existing entry. -/
def fsStore (path : String) (st : FileState) : FS → FS
  | [] => [(path, st)]
  | (p, old) :: rest =>
    if p == path then (p, st) :: rest else (p, old) :: fsStore path st rest

/-- `Datastore::create` (datastore.rs lines 54-66).  `path = <datastore>/<file>`;
`check_permissions(path)`; `File::create` truncates an existing file keeping
its mode, or creates a new one with mode `0o666 & !umask`; then
`f.metadata()?.permissions().set_mode(0o644)` mutates only the temporary
`Permissions` value returned by `permissions()` — the standard library applies
a mode to a file only through `fs::set_permissions`/`File::set_permissions`,
which the code never calls — so the file's mode on disk is unchanged by that
line; finally `serde_json::to_writer_pretty` writes the serialization
(`serialized` is the pretty-JSON text of `value`). -/
def datastoreCreate (fs : FS) (ds : String) (file : String)
    (serialized : String) (umask : Nat) : Except TufError FS :=
  let path := ds ++ "/" ++ file
  match check_permissions path (fsMetadata fs path) with
  | .error e => .error e
  | .ok () =>
    let mode :=
      match fsLookup fs path with
      | some st => st.mode
      | none => 0o666 &&& (0o777 ^^^ umask)
    .ok (fsStore path { mode := mode, contents := serialized } fs)

/-! ## Signed<T>::verify (src/tough/src/serde/mod.rs lines 49-80)

`Decoded<Hex>` implements `PartialEq`/`Ord` on the decoded bytes
(decoded.rs lines 118-136), so `keyids.contains(&signature.keyid)` and the
`BTreeMap::get` on `root.signed.keys` compare byte strings; signatures and
keyids are therefore carried as byte lists here.  The key type and the
cryptographic `Key::verify` (src/tough/src/serde/key.rs, not under src/) are
abstract parameters: the claims at stake concern the counting logic only. -/

/-- A `Signature` entry `{keyid, sig}` (mod.rs lines 91-95), by its decoded
bytes. -/
structure Signature where
  keyid : List Nat
  sig : List Nat
deriving DecidableEq, Repr

/-- `RoleKeys` (src/tough/src/serde/root.rs lines 45-49): authorized keyids
(decoded bytes) and the threshold (`NonZeroU64`). -/
structure RoleKeys where
  keyids : List (List Nat)
  threshold : Nat
deriving DecidableEq, Repr

/-- `BTreeMap<Decoded<Hex>, K>::get`: lookup by keyid bytes. -/
def lookupBytes {K : Type} : List (List Nat × K) → List Nat → Option K
  | [], _ => none
  | (kid, v) :: rest, k => if kid == k then some v else lookupBytes rest k

/-- `BTreeMap<Role, V>::get`. -/
def lookupRole {V : Type} : List (Role × V) → Role → Option V
  | [], _ => none
  | (r, v) :: rest, role => if r = role then some v else lookupRole rest role

/-- The `for signature in &self.signatures` loop of `Signed::verify`
(mod.rs lines 61-69): each signature entry whose keyid is in the role's
keyid list and resolves to a key in `root.signed.keys`, and whose signature
verifies over `data`, increments `valid` — with no deduplication of keyids. -/
def countValidLoop {K : Type} (keyVerify : K → List Nat → List Nat → Bool)
    (keys : List (List Nat × K)) (roleKeys : RoleKeys) (data : List Nat) :
    List Signature → Nat → Nat
  | [], valid => valid
  | s :: rest, valid =>
    countValidLoop keyVerify keys roleKeys data rest
      (if roleKeys.keyids.contains s.keyid then
        match lookupBytes keys s.keyid with
        | some key => if keyVerify key data s.sig then valid + 1 else valid
        | none => valid
      else valid)

/-- `Signed<T>::verify` (mod.rs lines 49-80): look up the role's `RoleKeys`
in the trusted root (`MissingRole` if absent), count valid signatures over
`data` (the serialization of `signed`), and require
`valid ≥ threshold`, else `SignatureThreshold{role, threshold, valid}`. -/
def verify {K : Type} (keyVerify : K → List Nat → List Nat → Bool)
    (rootKeys : List (List Nat × K)) (rootRoles : List (Role × RoleKeys))
    (role : Role) (data : List Nat) (signatures : List Signature) :
    Except TufError Unit :=
  match lookupRole rootRoles role with
  | none => .error (.MissingRole role)
  | some roleKeys =>
    let valid := countValidLoop keyVerify rootKeys roleKeys data signatures 0
    if valid ≥ roleKeys.threshold then .ok ()
    else .error (.SignatureThreshold role roleKeys.threshold valid)

/-! ## CreateProcess::run — the assembled Timestamp (src/tuftool/src/create.rs
lines 183-203) -/

/-- The per-role command-line parameters of `create` (create.rs lines 48-67):
`--<role>-version` (`NonZeroU64`) and `--<role>-expires` (UTC time). -/
structure CreateArgs where
  snapshot_version : Nat
  snapshot_expires : Int
  targets_version : Nat
  targets_expires : Int
  timestamp_version : Nat
  timestamp_expires : Int
deriving DecidableEq, Repr

/-- `Hashes` (mod.rs lines 104-107). -/
structure Hashes where
  sha256 : List Nat
deriving DecidableEq, Repr

/-- `Meta` (mod.rs lines 97-102). -/
structure MetaEntry where
  hashes : Hashes
  length : Nat
  version : Nat
deriving DecidableEq, Repr

/-- A `Timestamp` role document as `create` assembles it. -/
structure TimestampDoc where
  spec_version : String
  version : Nat
  expires : Int
  meta : List (String × MetaEntry)
deriving DecidableEq, Repr

/-- The `Timestamp` value constructed by `CreateProcess::run` (create.rs
lines 183-203): `version: self.args.snapshot_version`,
`expires: self.args.snapshot_expires`, and a single `meta` entry for
`snapshot.json` carrying the just-written snapshot's sha256/length and
`version: self.args.snapshot_version`.  `spec_version` is
`crate::SPEC_VERSION` (defined outside src/; passed in as a parameter). -/
def builtTimestamp (spec_version : String) (args : CreateArgs)
    (snapshot_sha256 : List Nat) (snapshot_length : Nat) : TimestampDoc :=
  { spec_version := spec_version
    version := args.snapshot_version
    expires := args.snapshot_expires
    meta := [("snapshot.json",
      { hashes := { sha256 := snapshot_sha256 }
        length := snapshot_length
        version := args.snapshot_version })] }

/-- Concrete `create` invocation where the per-role parameters differ:
`--snapshot-version 2 --snapshot-expires 100 --targets-version 3
--targets-expires 150 --timestamp-version 5 --timestamp-expires 200`. -/
def c3Args : CreateArgs :=
  { snapshot_version := 2
    snapshot_expires := 100
    targets_version := 3
    targets_expires := 150
    timestamp_version := 5
    timestamp_expires := 200 }

/-! ## CreateProcess::sign_metadata (src/tuftool/src/create.rs lines 315-335)

The caller's key set `self.keys : HashMap<Decoded<Hex>, KeyPair>` is carried
as a list of (keyid bytes, key) pairs; the signing primitive
`KeyPair::sign` (RSA-PSS via ring, src/tuftool/src/key.rs lines 29-39) is an
abstract function.  `data`, the canonical serialization of `role.signed`, is
recomputed identically on each loop iteration in the source (`signed` is
not mutated by the loop), so it is hoisted to a parameter. -/

/-- The `for (keyid, key) in &self.keys` loop of `sign_metadata` (create.rs
lines 317-331): for each caller key whose keyid is authorized for the role,
sign `data` and emit a `{keyid, sig}` signature. -/
def sign_loop {K : Type} (sign : K → List Nat → List Nat) (roleKeys : RoleKeys)
    (data : List Nat) : List (List Nat × K) → List Signature
  | [] => []
  | (keyid, key) :: rest =>
    if roleKeys.keyids.contains keyid then
      { keyid := keyid, sig := sign key data } :: sign_loop sign roleKeys data rest
    else sign_loop sign roleKeys data rest

/-- `CreateProcess::sign_metadata` (create.rs lines 315-335): if the
document's role is present in `root.roles`, append one signature per
authorized caller key to `role.signatures`; otherwise do nothing.  Returns
`Ok` in both cases — there is no threshold check. -/
def sign_metadata {K : Type} (sign : K → List Nat → List Nat)
    (rootRoles : List (Role × RoleKeys)) (keys : List (List Nat × K))
    (role : Role) (data : List Nat) (signatures : List Signature) :
    Except TufError (List Signature) :=
  match lookupRole rootRoles role with
  | none => .ok signatures
  | some roleKeys => .ok (signatures ++ sign_loop sign roleKeys data keys)

/-! ## add_key (src/tuftool/src/root.rs lines 178-205)

The root's `keys` map (keyid → `Key`) is carried as an association list; the
key-id derivation (`Key::key_id()`, SHA-256 of the canonical JSON of the key
object, computed in tough_schema outside src/) is an abstract parameter. -/

/-- An RSA `Key` as tuftool handles it (tough_schema's
`Key::Rsa { keyval: RsaKey { public: Decoded<Pem> }, scheme }`): decoded
public-key bytes, the original PEM body text, and the scheme tag. -/
structure KeyV where
  public_bytes : List Nat
  public_original : String
  scheme : Nat
deriving DecidableEq, Repr

/-- The derived `PartialEq` on `Key`: the `Decoded<Pem>` keyval compares on
its decoded bytes (src/tough/src/serde/decoded.rs lines 118-124), the scheme
on its tag — the original PEM text does not participate. -/
def keyEq (a b : KeyV) : Bool :=
  a.public_bytes == b.public_bytes && a.scheme == b.scheme

/-- The `Root` document as `root.rs` mutates it (fields `add_key` does not
touch are carried along unchanged). -/
structure RootDoc where
  consistent_snapshot : Bool
  expires : Int
  keys : List (List Nat × KeyV)
  roles : List (Role × RoleKeys)
  spec_version : String
  version : Nat
deriving DecidableEq, Repr

/-- `root.keys.iter().find(|(_, candidate_key)| key.eq(candidate_key))`
(root.rs lines 180-184). -/
def findKeyByValue (keys : List (List Nat × KeyV)) (key : KeyV) :
    Option (List Nat × KeyV) :=
  keys.find? (fun kv => keyEq key kv.2)

/-- `root.keys.contains_key(&key_id)` (root.rs line 190). -/
def containsKeyId (keys : List (List Nat × KeyV)) (kid : List Nat) : Bool :=
  keys.any (fun kv => kv.1 == kid)

/-- Map update for `roles`: replace the entry for `role` in place, or append
one (`HashMap::entry` semantics on the association list). -/
def setRole (roles : List (Role × RoleKeys)) (role : Role) (rk : RoleKeys) :
    List (Role × RoleKeys) :=
  match roles with
  | [] => [(role, rk)]
  | (r, old) :: rest =>
    if r = role then (r, rk) :: rest else (r, old) :: setRole rest role rk

/-- `if !entry.keyids.contains(&key_id) { entry.keyids.push(key_id); }`
(root.rs lines 200-202). -/
def pushIfMissing (entry : RoleKeys) (kid : List Nat) : RoleKeys :=
  if entry.keyids.contains kid then entry
  else { entry with keyids := entry.keyids ++ [kid] }

/-- `role_keys!()` (root.rs lines 67-80): empty keyid list, the deliberately
absurd default threshold 1507. -/
def roleKeysDefault : RoleKeys :=
  { keyids := [], threshold := 1507 }

/-- The tail of `add_key` (root.rs lines 199-202):
`root.roles.entry(role).or_insert_with(|| role_keys!())`, then append the
keyid if missing. -/
def addKeyIdToRole (root : RootDoc) (role : Role) (kid : List Nat) : RootDoc :=
  let entry := (lookupRole root.roles role).getD roleKeysDefault
  { root with roles := setRole root.roles role (pushIfMissing entry kid) }

/-- `add_key` (root.rs lines 178-205): if an existing entry of `root.keys`
equals `key` (on decoded bytes), reuse its keyid; otherwise derive the keyid
(`keyIdOf`), fail with `KeyDuplicate` if that keyid is already a map key,
else insert the key; finally add the keyid to the role's keyid list if
missing. -/
def add_key (keyIdOf : KeyV → List Nat) (root : RootDoc) (role : Role)
    (key : KeyV) : Except TufError RootDoc :=
  match findKeyByValue root.keys key with
  | some kv => .ok (addKeyIdToRole root role kv.1)
  | none =>
    let kid := keyIdOf key
    if containsKeyId root.keys kid then
      .error (.KeyDuplicate kid)
    else
      .ok (addKeyIdToRole
        { root with keys := root.keys ++ [(kid, key)] } role kid)

/-! ## JSON serialization: verifier bytes vs. canonical bytes

`Signed::verify` signs-checks over `serde_json::to_vec(&self.signed)`
(mod.rs line 59, with the TODO admitting this only *hopes* to be Canonical
JSON), while the authoring side (`CreateProcess::sign_metadata`, create.rs
lines 319-324) serializes with `olpc_cjson::CanonicalFormatter`.  The JSON
tree of a document is modelled explicitly; `jsonCompact` renders it the way
`serde_json`'s compact formatter does (members in the order produced by the
Rust `Serialize` impls), and `canonicalize` re-sorts every object's members
by key string as the canonical encoder does. -/

/-- A JSON value; object members are kept in emission order. -/
inductive Json where
  | str (s : String)
  | num (n : Nat)
  | bool (b : Bool)
  | arr (items : List Json)
  | obj (members : List (String × Json))

/-- Lowercase hex digit. -/
def hexDigitLower (n : Nat) : Char :=
  if n < 10 then Char.ofNat (48 + n) else Char.ofNat (87 + n)

/-- `serde_json`'s escaping of a character inside a JSON string: `"` and
`\` are backslash-escaped, control characters take their short escapes or
`\u00XX`, everything else passes through. -/
def escapeChar (c : Char) : String :=
  if c = '"' then "\\\""
  else if c = '\\' then "\\\\"
  else if c = Char.ofNat 8 then "\\b"
  else if c = Char.ofNat 9 then "\\t"
  else if c = Char.ofNat 10 then "\\n"
  else if c = Char.ofNat 12 then "\\f"
  else if c = Char.ofNat 13 then "\\r"
  else if c.toNat < 32 then
    "\\u00" ++ String.singleton (hexDigitLower (c.toNat / 16)) ++
      String.singleton (hexDigitLower (c.toNat % 16))
  else String.singleton c

/-- A JSON string literal with its quotes. -/
def escapeString (s : String) : String :=
  "\"" ++ String.join (s.toList.map escapeChar) ++ "\""

mutual

/-- Compact JSON rendering, members in stored order — `serde_json::to_vec`
with the default compact formatter. -/
def jsonCompact : Json → String
  | .str s => escapeString s
  | .num n => Nat.repr n
  | .bool b => if b then "true" else "false"
  | .arr items => "[" ++ jsonItems items ++ "]"
  | .obj members => "\x7b" ++ jsonMembers members ++ "\x7d"

/-- Comma-separated array items. -/
def jsonItems : List Json → String
  | [] => ""
  | [j] => jsonCompact j
  | j :: j' :: rest => jsonCompact j ++ "," ++ jsonItems (j' :: rest)

/-- Comma-separated `"key":value` object members. -/
def jsonMembers : List (String × Json) → String
  | [] => ""
  | [(k, v)] => escapeString k ++ ":" ++ jsonCompact v
  | (k, v) :: m :: rest =>
    escapeString k ++ ":" ++ jsonCompact v ++ "," ++ jsonMembers (m :: rest)

end

/-- Strict lexicographic order on character lists by codepoint. -/
def charListLt : List Char → List Char → Bool
  | [], [] => false
  | [], _ :: _ => true
  | _ :: _, [] => false
  | a :: as, b :: bs =>
    if a.toNat < b.toNat then true
    else if b.toNat < a.toNat then false
    else charListLt as bs

/-- Strict lexicographic order on strings by codepoint (the member-key
order canonical JSON requires). -/
def strLt (a b : String) : Bool :=
  charListLt a.toList b.toList

/-- Insert a member into a member list sorted by key (codepoint order on
the key strings). -/
def insertMember (k : String) (v : Json) :
    List (String × Json) → List (String × Json)
  | [] => [(k, v)]
  | (k', v') :: rest =>
    if strLt k' k then (k', v') :: insertMember k v rest
    else (k, v) :: (k', v') :: rest

/-- Sort object members by key, lexicographically by codepoint. -/
def sortMembers : List (String × Json) → List (String × Json)
  | [] => []
  | (k, v) :: rest => insertMember k v (sortMembers rest)

mutual

/-- Modelled from the spec (§4.1, `olpc_cjson::CanonicalFormatter` is not
under src/): canonical JSON re-orders every object's members
lexicographically by key codepoints; values are rendered as in the compact
form (no insignificant whitespace, integers plain, the same string
escaping). -/
def canonicalize : Json → Json
  | .str s => .str s
  | .num n => .num n
  | .bool b => .bool b
  | .arr items => .arr (canonicalizeItems items)
  | .obj members => .obj (sortMembers (canonicalizeMembers members))

/-- `canonicalize` mapped over array items. -/
def canonicalizeItems : List Json → List Json
  | [] => []
  | j :: rest => canonicalize j :: canonicalizeItems rest

/-- `canonicalize` mapped over member values. -/
def canonicalizeMembers : List (String × Json) → List (String × Json)
  | [] => []
  | (k, v) :: rest => (k, canonicalize v) :: canonicalizeMembers rest

end

/-- The canonical JSON encoding (modelled from the spec §4.1): sort every
object, then render compactly. -/
def jsonCanonical (j : Json) : String :=
  jsonCompact (canonicalize j)

/-! ### The tough `Root` struct as the verifier serializes it
(src/tough/src/serde/root.rs lines 12-22) -/

/-- Strict lexicographic order on byte strings — `Ord for Vec<u8>`, which is
`Ord for Decoded<T>` (decoded.rs lines 126-136) and hence the iteration
order of `BTreeMap<Decoded<Hex>, _>`. -/
def bytesLt : List Nat → List Nat → Bool
  | [], [] => false
  | [], _ :: _ => true
  | _ :: _, [] => false
  | a :: as, b :: bs =>
    if a < b then true else if b < a then false else bytesLt as bs

/-- Insertion into a key-entry list ordered by decoded keyid bytes. -/
def insertByBytes (kv : DecodedV × Json) :
    List (DecodedV × Json) → List (DecodedV × Json)
  | [] => [kv]
  | kv' :: rest =>
    if bytesLt kv'.1.bytes kv.1.bytes then kv' :: insertByBytes kv rest
    else kv :: kv' :: rest

/-- `BTreeMap<Decoded<Hex>, Key>` iteration order: sorted by decoded
bytes. -/
def sortKeysByBytes : List (DecodedV × Json) → List (DecodedV × Json)
  | [] => []
  | kv :: rest => insertByBytes kv (sortKeysByBytes rest)

/-- Declaration index of `Role` — its derived `Ord`, hence the iteration
order of `BTreeMap<Role, RoleKeys>`. -/
def roleIdx : Role → Nat
  | .Root => 0
  | .Snapshot => 1
  | .Targets => 2
  | .Timestamp => 3

/-- The kebab-case serialization of `Role` (mod.rs lines 24-31). -/
def roleName : Role → String
  | .Root => "root"
  | .Snapshot => "snapshot"
  | .Targets => "targets"
  | .Timestamp => "timestamp"

/-- Insertion into a role-entry list ordered by the derived `Ord`. -/
def insertByRole {V : Type} (rv : Role × V) :
    List (Role × V) → List (Role × V)
  | [] => [rv]
  | rv' :: rest =>
    if roleIdx rv'.1 < roleIdx rv.1 then rv' :: insertByRole rv rest
    else rv :: rv' :: rest

/-- `BTreeMap<Role, _>` iteration order. -/
def sortByRole {V : Type} : List (Role × V) → List (Role × V)
  | [] => []
  | rv :: rest => insertByRole rv (sortByRole rest)

/-- `RoleKeys` as serialized: the keyids keep their original hex text
(`Decoded` serialization), threshold is a number; fields are declared
`keyids` then `threshold` (root.rs lines 45-49). -/
structure SRoleKeys where
  keyids : List DecodedV
  threshold : Nat
deriving DecidableEq, Repr

/-- The tough library's `Root` struct as a serialization source: the
`keys` map carries each key's own serialized object opaquely as `Json`
(the `Key` enum lives in src/tough/src/serde/key.rs, outside src/);
`expires` is the RFC 3339 text `chrono` emits. -/
structure SRoot where
  consistent_snapshot : Bool
  expires : String
  keys : List (DecodedV × Json)
  roles : List (Role × SRoleKeys)
  spec_version : String
  version : Nat

/-- `RoleKeys`'s `Serialize` output. -/
def sRoleKeysJson (rk : SRoleKeys) : Json :=
  .obj [("keyids", .arr (rk.keyids.map (fun d => .str d.original))),
        ("threshold", .num rk.threshold)]

/-- `Root`'s `Serialize` output as a JSON tree: the `_type` tag first
(`#[serde(tag = "_type")]`, rename "root"), then the fields in declaration
order (root.rs lines 15-22); the two `BTreeMap`s iterate in their key
order; `Decoded` map keys emit their original text. -/
def rootToJson (r : SRoot) : Json :=
  .obj [("_type", .str "root"),
        ("consistent_snapshot", .bool r.consistent_snapshot),
        ("expires", .str r.expires),
        ("keys", .obj ((sortKeysByBytes r.keys).map
          (fun kv => (kv.1.original, kv.2)))),
        ("roles", .obj ((sortByRole r.roles).map
          (fun rv => (roleName rv.1, sRoleKeysJson rv.2)))),
        ("spec_version", .str r.spec_version),
        ("version", .num r.version)]

/-- The bytes `Signed::<Root>::verify` checks signatures over:
`serde_json::to_vec(&self.signed)` (mod.rs line 59). -/
def verifierSignedBytes (r : SRoot) : String :=
  jsonCompact (rootToJson r)

/-- The bytes the authoring side signs: the canonical JSON encoding of the
same document (create.rs lines 319-324; canonical encoder modelled from the
spec §4.1). -/
def signerSignedBytes (r : SRoot) : String :=
  jsonCanonical (rootToJson r)

/-- A root document whose `keys` map holds two keyids whose original hex
text is `"aa"` (decoded byte `0xaa`) and `"AB"` (decoded byte `0xab`):
hex is case-insensitive, so both parse, but decoded-byte order and
key-string codepoint order disagree on them. -/
def c2Root : SRoot :=
  { consistent_snapshot := false
    expires := "2030-01-01T00:00:00Z"
    keys := [({ bytes := [0xaa], original := "aa" }, .obj []),
             ({ bytes := [0xab], original := "AB" }, .obj [])]
    roles := []
    spec_version := "1.0"
    version := 1 }

end Tough

namespace Tough

/-! ## Theorems -/

/-- Helper: looking up the role just set returns the value set. -/
theorem lookupRole_setRole (roles : List (Role × RoleKeys)) (role : Role)
    (rk : RoleKeys) : lookupRole (setRole roles role rk) role = some rk := by
  induction roles with
  | nil => simp [setRole, lookupRole]
  | cons rv rest ih =>
    obtain ⟨r, old⟩ := rv
    by_cases h : r = role <;> simp [setRole, lookupRole, h, ih]

/-- Helper: setting the same role twice to the same value is the same as
setting it once. -/
theorem setRole_setRole (roles : List (Role × RoleKeys)) (role : Role)
    (rk : RoleKeys) :
    setRole (setRole roles role rk) role rk = setRole roles role rk := by
  induction roles with
  | nil => simp [setRole]
  | cons rv rest ih =>
    obtain ⟨r, old⟩ := rv
    by_cases h : r = role <;> simp [setRole, h, ih]

/-- Helper: after `pushIfMissing`, the keyid is present. -/
theorem pushIfMissing_contains (entry : RoleKeys) (kid : List Nat) :
    (pushIfMissing entry kid).keyids.contains kid = true := by
  unfold pushIfMissing
  by_cases h : kid ∈ entry.keyids <;> simp [h]

/-- Helper: if the keyid is already present, `pushIfMissing` does nothing. -/
theorem pushIfMissing_of_contains (entry : RoleKeys) (kid : List Nat)
    (h : entry.keyids.contains kid = true) :
    pushIfMissing entry kid = entry := by
  have hm : kid ∈ entry.keyids := by simpa using h
  simp [pushIfMissing, hm]

/-- Helper: `addKeyIdToRole` is idempotent in its role/keyid update. -/
theorem addKeyIdToRole_idem (root : RootDoc) (role : Role) (kid : List Nat) :
    addKeyIdToRole (addKeyIdToRole root role kid) role kid =
      addKeyIdToRole root role kid := by
  unfold addKeyIdToRole
  simp only [lookupRole_setRole, Option.getD_some]
  rw [pushIfMissing_of_contains _ _ (pushIfMissing_contains _ _),
    setRole_setRole]

/-- Helper: `find?` over an appended list when the first part has no match. -/
theorem find?_append_of_none {α : Type} (p : α → Bool) (l l' : List α)
    (h : l.find? p = none) : (l ++ l').find? p = l'.find? p := by
  induction l with
  | nil => simp
  | cons a rest ih =>
    rw [List.find?_cons] at h
    cases hp : p a with
    | true => rw [hp] at h; exact absurd h (by simp)
    | false =>
      rw [hp] at h
      simpa [List.find?_cons, hp] using ih h

/-- Helper: adding a keyid to a role leaves `keys` (and every other field of
the root) unchanged. -/
theorem addKeyIdToRole_keys (root : RootDoc) (role : Role) (kid : List Nat) :
    (addKeyIdToRole root role kid).keys = root.keys := rfl

/-- Helper: `keyEq` is reflexive. -/
theorem keyEq_refl (key : KeyV) : keyEq key key = true := by
  simp [keyEq]

/-- C6: `add_key` is idempotent.  If `add_key keyIdOf root role key` returns
the updated root `root1`, then adding any key with the same decoded
public-key bytes and scheme (the PEM text `public_original` may differ —
the derived `PartialEq` on `Key` ignores it) to `root1` returns `root1`
unchanged: the second application finds an equal key in `root1.keys`, reuses
its keyid, and does not append a duplicate keyid to `roles[role].keyids`. -/
theorem add_key_idempotent (keyIdOf : KeyV → List Nat) (root root1 : RootDoc)
    (role : Role) (key key2 : KeyV)
    (hb : key2.public_bytes = key.public_bytes)
    (hs : key2.scheme = key.scheme)
    (h : add_key keyIdOf root role key = .ok root1) :
    add_key keyIdOf root1 role key2 = .ok root1 := by
  have hpred : (fun kv : List Nat × KeyV => keyEq key2 kv.2) =
      (fun kv : List Nat × KeyV => keyEq key kv.2) := by
    funext kv
    simp [keyEq, hb, hs]
  have hfind2 : ∀ l, findKeyByValue l key2 = findKeyByValue l key := by
    intro l
    unfold findKeyByValue
    rw [hpred]
  unfold add_key at h ⊢
  cases hf : findKeyByValue root.keys key with
  | some kv =>
    rw [hf] at h
    have hr : root1 = addKeyIdToRole root role kv.1 :=
      (Except.ok.injEq _ _).mp h.symm
    have hkeys : root1.keys = root.keys := by
      rw [hr, addKeyIdToRole_keys]
    rw [hfind2, hkeys, hf, hr]
    exact congrArg Except.ok (addKeyIdToRole_idem root role kv.1)
  | none =>
    rw [hf] at h
    by_cases hdup : containsKeyId root.keys (keyIdOf key) = true
    · rw [if_pos hdup] at h
      exact absurd h (by simp)
    · rw [if_neg hdup] at h
      have hr : root1 =
          addKeyIdToRole { root with keys := root.keys ++ [(keyIdOf key, key)] }
            role (keyIdOf key) :=
        (Except.ok.injEq _ _).mp h.symm
      have hkeys : root1.keys = root.keys ++ [(keyIdOf key, key)] := by
        rw [hr, addKeyIdToRole_keys]
      have hfind1 : findKeyByValue root1.keys key =
          some (keyIdOf key, key) := by
        unfold findKeyByValue at hf ⊢
        rw [hkeys, find?_append_of_none _ _ _ hf]
        simp [List.find?_cons, keyEq_refl]
      rw [hfind2, hfind1, hr]
      exact congrArg Except.ok (addKeyIdToRole_idem
        { root with keys := root.keys ++ [(keyIdOf key, key)] } role
        (keyIdOf key))

/-- Witness for C6: adding an RSA key (bytes `[9]`) to an empty root, then
adding the same public key again with different PEM text, leaves the root
unchanged after the first application. -/
theorem add_key_idempotent_witness :
    (add_key (fun _ => [1])
        { consistent_snapshot := true, expires := 0, keys := [], roles := [],
          spec_version := "1.0", version := 1 } .Root
        ⟨[9], "PEM-A", 0⟩ =
      .ok { consistent_snapshot := true, expires := 0,
            keys := [([1], ⟨[9], "PEM-A", 0⟩)],
            roles := [(.Root, { keyids := [[1]], threshold := 1507 })],
            spec_version := "1.0", version := 1 }) ∧
    (add_key (fun _ => [1])
        { consistent_snapshot := true, expires := 0,
          keys := [([1], ⟨[9], "PEM-A", 0⟩)],
          roles := [(.Root, { keyids := [[1]], threshold := 1507 })],
          spec_version := "1.0", version := 1 } .Root
        ⟨[9], "PEM-B", 0⟩ =
      .ok { consistent_snapshot := true, expires := 0,
            keys := [([1], ⟨[9], "PEM-A", 0⟩)],
            roles := [(.Root, { keyids := [[1]], threshold := 1507 })],
            spec_version := "1.0", version := 1 }) :=
  ⟨by decide,
    add_key_idempotent (fun _ => [1])
      { consistent_snapshot := true, expires := 0, keys := [], roles := [],
        spec_version := "1.0", version := 1 }
      { consistent_snapshot := true, expires := 0,
        keys := [([1], ⟨[9], "PEM-A", 0⟩)],
        roles := [(.Root, { keyids := [[1]], threshold := 1507 })],
        spec_version := "1.0", version := 1 }
      .Root ⟨[9], "PEM-A", 0⟩ ⟨[9], "PEM-B", 0⟩ rfl rfl (by decide)⟩

/-- Helper: the signing loop appends exactly the signatures of the
authorized keys, in key-set order. -/
theorem sign_loop_eq_filterMap {K : Type} (sign : K → List Nat → List Nat)
    (roleKeys : RoleKeys) (data : List Nat) (keys : List (List Nat × K)) :
    sign_loop sign roleKeys data keys =
      keys.filterMap (fun kk =>
        if roleKeys.keyids.contains kk.1 then
          some { keyid := kk.1, sig := sign kk.2 data }
        else none) := by
  induction keys with
  | nil => rfl
  | cons kk rest ih =>
    obtain ⟨keyid, key⟩ := kk
    by_cases h : keyid ∈ roleKeys.keyids <;>
      simp [sign_loop, List.filterMap_cons, h, ih]

/-- C7: `check_expired` fails with `ExpiredMetadata{role}` exactly when
`now ≥ expires`, and returns ok exactly when `now < expires`. -/
theorem check_expired_iff (role : Role) (now expires : Int) :
    (check_expired role now expires = .error (.ExpiredMetadata role) ↔
      expires ≤ now) ∧
    (check_expired role now expires = .ok () ↔ now < expires) := by
  unfold check_expired
  by_cases h : now < expires <;> simp [h] <;> omega

/-- C10: `copy_action` returns `Copy` iff `--copy` is set (regardless of
`--hardlink`), `Hardlink` iff only `--hardlink` is set, and `Symlink` iff
neither flag is given. -/
theorem copy_action_spec (c h : Bool) :
    (copy_action c h = .Copy ↔ c = true) ∧
    (copy_action c h = .Hardlink ↔ (c = false ∧ h = true)) ∧
    (copy_action c h = .Symlink ↔ (c = false ∧ h = false)) := by
  cases c <;> cases h <;> simp [copy_action]

/-- C5: any `Decoded` value produced by deserialization satisfies
`parse d.original = some d.bytes`, and re-serializing it yields `d.original`
byte-for-byte — so `serialize (deserialize s) = s` for every string `s`
that parses.  Generic in the decode function (`Hex::parse`, `Pem::parse`). -/
theorem decoded_roundtrip (parse : String → Option (List Nat)) (s : String)
    (d : DecodedV) (hde : deserializeDecoded parse s = some d) :
    parse d.original = some d.bytes ∧ serializeDecoded d = d.original := by
  unfold deserializeDecoded at hde
  cases hp : parse s with
  | none => rw [hp] at hde; exact absurd hde (by simp)
  | some b =>
    rw [hp] at hde
    have : d = { bytes := b, original := s } := by
      exact (Option.some.injEq _ _).mp hde.symm
    subst this
    exact ⟨hp, rfl⟩

/-- Witness for C5 at the concrete string "abCD" under `Hex::parse`. -/
theorem decoded_roundtrip_witness :
    deserializeDecoded hexParse "abCD" = some ⟨[171, 205], "abCD"⟩ ∧
    (hexParse "abCD" = some [171, 205] ∧
      serializeDecoded ⟨[171, 205], "abCD"⟩ = "abCD") := by
  refine ⟨by decide, ?_⟩
  have h := decoded_roundtrip hexParse "abCD" ⟨[171, 205], "abCD"⟩ (by decide)
  exact h

/-- C8: `Datastore::new` returns `DatastorePermissions{path, mode}` exactly
when the path exists with `mode & 0o022 ≠ 0`; a nonexistent path is accepted
(ok); a metadata I/O error yields `DatastoreMetadata`, not
`DatastorePermissions`. -/
theorem datastore_new_spec (path : String) (mode : Nat) :
    (datastoreNew path .notFound = .ok path) ∧
    (datastoreNew path (.found mode) =
        .error (.DatastorePermissions path mode) ↔ mode &&& 0o022 ≠ 0) ∧
    (datastoreNew path (.found mode) = .ok path ↔ mode &&& 0o022 = 0) ∧
    (datastoreNew path .ioError = .error (.DatastoreMetadata path)) := by
  refine ⟨rfl, ?_, ?_, rfl⟩
  all_goals
    unfold datastoreNew check_permissions
    by_cases h : mode &&& 0o022 = 0 <;> simp [h]

/-- C1: contrary to the claim, `Signed::verify` does NOT count each
authorized keyid at most once.  Concrete run: the root authorizes the single
keyid `[0]` for the root role at threshold 2; the candidate document carries
the same valid signature entry twice; the loop counts `valid = 2 ≥ 2` and
`verify` returns `Ok`, although only 1 distinct authorized keyid signed
(fewer than the threshold), where the claim requires a
`SignatureThreshold` failure.  (The key type is instantiated with `Unit`
and the abstract crypto oracle accepts the signature — the counting logic
being evaluated is independent of the cryptography.) -/
theorem verify_accepts_duplicate_keyids :
    verify (fun (_ : Unit) _ _ => true) [([0], ())]
        [(.Root, { keyids := [[0]], threshold := 2 })] .Root [7]
        [{ keyid := [0], sig := [1] }, { keyid := [0], sig := [1] }] =
      .ok () ∧
    (([{ keyid := [0], sig := [1] },
       { keyid := [0], sig := [1] }] : List Signature).map
        Signature.keyid).dedup.length = 1 :=
  ⟨rfl, by decide⟩

/-- C3: the Timestamp document assembled by `CreateProcess::run` takes its
`version` and `expires` from the snapshot parameters, not the timestamp
ones.  At the concrete invocation `c3Args` (`--snapshot-version 2
--timestamp-version 5 --snapshot-expires 100 --timestamp-expires 200`), the
written timestamp has `version = 2 ≠ 5` and `expires = 100 ≠ 200`. -/
theorem created_timestamp_uses_snapshot_params :
    (builtTimestamp "1.0" c3Args [0] 10).version = c3Args.snapshot_version ∧
    (builtTimestamp "1.0" c3Args [0] 10).version ≠ c3Args.timestamp_version ∧
    (builtTimestamp "1.0" c3Args [0] 10).expires = c3Args.snapshot_expires ∧
    (builtTimestamp "1.0" c3Args [0] 10).expires ≠ c3Args.timestamp_expires := by
  decide

/-- C2: contrary to the claim, the bytes `Signed::verify` checks signatures
over are NOT the canonical JSON encoding of `signed` for every document.
At `c2Root` — whose `keys` map holds the keyids `"aa"` (byte `0xaa`) and
`"AB"` (byte `0xab`) — the verifier's `serde_json` rendering emits the
`BTreeMap` entries in decoded-byte order (`"aa"` before `"AB"`), while
canonical JSON orders object members by key codepoints (`"AB"` before
`"aa"`, since `A < a`), so the two byte sequences differ and a signature
computed over the canonical encoding is checked against different bytes. -/
theorem verifier_bytes_not_canonical :
    verifierSignedBytes c2Root ≠ signerSignedBytes c2Root := by
  decide

/-- C4: contrary to the claim, after `Datastore::create` returns `Ok` the
file does not necessarily have mode `0o644`: `set_mode(0o644)` is invoked
on the temporary `Permissions` value and never applied to the file, so an
existing file keeps its prior mode.  Concrete run: `<datastore>/root.json`
exists with mode `0o700` (which passes `check_permissions`, as
`0o700 & 0o022 = 0`); after `create` the contents are the new serialization
but the mode is still `0o700 ≠ 0o644`. -/
theorem datastore_create_keeps_prior_mode :
    datastoreCreate [("d/root.json", { mode := 0o700, contents := "old" })]
        "d" "root.json" "new-json" 0o022 =
      .ok [("d/root.json", { mode := 0o700, contents := "new-json" })] ∧
    (0o700 : Nat) ≠ 0o644 := by
  exact ⟨by decide, by decide⟩

/-- C9: `sign_metadata` always returns `Ok` — no threshold check — and the
signatures it appends are exactly one `{keyid, sig}` per caller key whose
keyid is authorized for the document's role; when the role is absent from
`root.roles` the appended list is empty (the `filterMap` over an absent
role collapses to `[]`). -/
theorem sign_metadata_spec {K : Type} (sign : K → List Nat → List Nat)
    (rootRoles : List (Role × RoleKeys)) (keys : List (List Nat × K))
    (role : Role) (data : List Nat) (signatures : List Signature) :
    sign_metadata sign rootRoles keys role data signatures =
      .ok (signatures ++
        match lookupRole rootRoles role with
        | none => []
        | some roleKeys =>
          keys.filterMap (fun kk =>
            if roleKeys.keyids.contains kk.1 then
              some { keyid := kk.1, sig := sign kk.2 data }
            else none)) := by
  unfold sign_metadata
  cases h : lookupRole rootRoles role with
  | none => simp
  | some roleKeys => simp [sign_loop_eq_filterMap]

end Tough
